import Mathlib

/-!
Verification of the synthetic e-commerce data generator
(`synthetic_data_generator.py`) and the top-spender query
(`query_top_spenders.py`).

Modelling conventions for the shallow embedding:

* Money and continuous random draws are exact rationals (`ℚ`); Python's
  `round(x, 2)` (round-half-to-even) is `round2`.
* Dates are whole days since an epoch (`ℤ`), datetimes are whole minutes
  since the same epoch (`ℤ`); one day is 1440 minutes.  `datetime.date()`
  is `dateOf`, i.e. floor division by 1440.
* Every call to the `random` module is given its sampled value through an
  explicit draw record.  An outcome of `random.randint(a, b)` is encoded
  as `a + n % (b - a + 1)` for a draw `n : ℕ`, so the documented range of
  the library call is built into the model; `random.random()`,
  `random.uniform`, `random.gauss` and `random.normalvariate` outcomes
  are unconstrained rationals (`int(...)` applied to a Gaussian is an
  unconstrained integer); an outcome of `random.sample(population, k)`
  is the length-`k` prefix of a drawn permutation of the population
  indices, the permutation property being a hypothesis where a theorem
  needs it.
* `random.choice(xs)` receives a drawn index reduced mod `xs.length`,
  and `random.seed(42)` makes two runs of the program consume identical
  draw streams.
-/

/-- Python's `round` to an integer: round half to even (banker's rounding). -/
def roundHalfEven (x : ℚ) : ℤ :=
  let f := Int.floor x
  let frac := x - f
  if frac < 1/2 then f
  else if 1/2 < frac then f + 1
  else if f % 2 = 0 then f else f + 1

/-- Python's `round(x, 2)`. -/
def round2 (x : ℚ) : ℚ := (roundHalfEven (x * 100) : ℚ) / 100

/-- A rational is a whole number of cents. -/
def Cents (x : ℚ) : Prop := ∃ k : ℤ, x = (k : ℚ) / 100

theorem roundHalfEven_intCast (k : ℤ) : roundHalfEven (k : ℚ) = k := by
  simp [roundHalfEven]

theorem Cents.round2 (x : ℚ) : Cents (round2 x) := ⟨roundHalfEven (x * 100), rfl⟩

theorem Cents.zero : Cents 0 := ⟨0, by norm_num⟩

theorem Cents.add {x y : ℚ} (hx : Cents x) (hy : Cents y) : Cents (x + y) := by
  obtain ⟨a, rfl⟩ := hx
  obtain ⟨b, rfl⟩ := hy
  exact ⟨a + b, by push_cast; ring⟩

theorem round2_eq_self {x : ℚ} (hx : Cents x) : round2 x = x := by
  obtain ⟨k, rfl⟩ := hx
  have h100 : ((k : ℚ) / 100) * 100 = (k : ℚ) := by field_simp
  rw [round2, h100, roundHalfEven_intCast]

/-- Python `datetime.date()` of a minutes-since-epoch timestamp: the day index. -/
def dateOf (t : ℤ) : ℤ := t.fdiv 1440

theorem dateOf_sub_days (t d : ℤ) : dateOf (t - 1440 * d) = dateOf t - d := by
  have h : (1440 : ℤ) ≠ 0 := by norm_num
  have e : t - 1440 * d = t + (-d) * 1440 := by ring
  rw [dateOf, dateOf, e,
    Int.fdiv_eq_ediv _ (by norm_num : (0:ℤ) ≤ 1440),
    Int.fdiv_eq_ediv _ (by norm_num : (0:ℤ) ≤ 1440),
    Int.add_mul_ediv_right _ _ h]
  ring

/-! ### Static vocabulary of `synthetic_data_generator.py` -/

def FIRST_NAMES : List String :=
  ["Emma", "Liam", "Olivia", "Noah", "Ava", "Elijah", "Sophia", "Lucas",
   "Isabella", "Mason", "Mia", "Ethan", "Charlotte", "Logan", "Amelia", "James",
   "Harper", "Benjamin", "Evelyn", "Henry"]

def LAST_NAMES : List String :=
  ["Smith", "Johnson", "Brown", "Taylor", "Anderson", "Thomas", "Jackson",
   "White", "Harris", "Martin", "Thompson", "Garcia", "Martinez", "Robinson",
   "Clark", "Rodriguez", "Lewis", "Lee", "Walker", "Hall"]

/-- The `PRODUCT_CATEGORIES` table; a Python dict iterates in insertion order, so a
list of pairs is a faithful model. -/
def PRODUCT_CATEGORIES : List (String × List (String × ℤ × ℤ)) :=
  [("Electronics",
     [("Wireless Earbuds", 59, 199), ("Smartphone Case", 9, 39),
      ("USB-C Charger", 12, 45), ("Laptop Sleeve", 18, 69),
      ("Smartwatch", 99, 349)]),
   ("Home",
     [("Ceramic Mug", 6, 20), ("Throw Pillow", 14, 55),
      ("Desk Lamp", 22, 110), ("Bath Towel Set", 25, 90),
      ("Knife Set", 35, 160)]),
   ("Beauty",
     [("Facial Cleanser", 10, 35), ("Sunscreen SPF 50", 12, 42),
      ("Shampoo", 8, 28), ("Serum", 22, 90), ("Moisturizer", 15, 60)]),
   ("Sports",
     [("Yoga Mat", 18, 60), ("Running Shoes", 55, 180),
      ("Water Bottle", 12, 40), ("Fitness Tracker", 59, 220),
      ("Bike Helmet", 35, 140)])]

def PAYMENT_METHODS : List String :=
  ["credit_card", "debit_card", "paypal", "gift_card", "apple_pay"]

def STATES : List String :=
  ["CA", "NY", "TX", "FL", "IL", "PA", "OH", "GA", "NC", "WA"]

def EMAIL_DOMAINS : List String :=
  ["gmail.com", "yahoo.com", "outlook.com", "example.com"]

/-! ### Entity records (CSV rows) -/

structure Customer where
  customer_id : ℕ
  name : String
  email : String
  phone : String
  state : String
  /-- days since epoch -/
  signup_date : ℤ
deriving DecidableEq

structure Product where
  product_id : ℕ
  name : String
  category : String
  unit_price : ℚ
  stock : ℕ
deriving DecidableEq

structure Order where
  order_id : ℕ
  customer_id : ℕ
  /-- minutes since epoch -/
  order_datetime : ℤ
  shipping_state : String
deriving DecidableEq

structure OrderDetail where
  order_detail_id : ℕ
  order_id : ℕ
  product_id : ℕ
  quantity : ℤ
  unit_price : ℚ
  discount : ℚ
  line_total : ℚ
deriving DecidableEq

structure Payment where
  payment_id : ℕ
  order_id : ℕ
  payment_method : String
  payment_datetime : ℤ
  subtotal : ℚ
  tax : ℚ
  shipping : ℚ
  total : ℚ
  currency : String
deriving DecidableEq

/-! ### Draw records: one record per entity holds the values produced by
the `random` calls the source makes for that entity. -/

structure CustDraw where
  firstIdx : ℕ
  lastIdx : ℕ
  domainIdx : ℕ
  /-- outcome of `random.random()` for the suffix test -/
  suffixR : ℚ
  /-- outcome of `random.randint(1, 99)` encoded as `1 + suffixN % 99` -/
  suffixN : ℕ
  phoneA : ℕ
  phoneB : ℕ
  phoneC : ℕ
  stateIdx : ℕ
  /-- outcome of `random.randint(30, 900)` encoded as `30 + signupN % 871` -/
  signupN : ℕ
deriving DecidableEq

structure ProdDraw where
  /-- outcome of `random.normalvariate(mid, range/6)` -/
  gaussPrice : ℚ
  /-- outcome of `random.randint(50, 500)` encoded as `50 + stockN % 451` -/
  stockN : ℕ
deriving DecidableEq

structure OrderDateDraw where
  /-- value of `int(abs(random.gauss(dss/2, dss/3)))`, a nonnegative integer -/
  gaussAbs : ℕ
  /-- outcome of `random.randint(8, 21)` encoded as `8 + hourN % 14` -/
  hourN : ℕ
  /-- outcome of `random.randint(0, 59)` encoded as `minuteN % 60` -/
  minuteN : ℕ
deriving DecidableEq

structure DetailDraw where
  /-- value of `int(random.gauss(2, 1))`, an unconstrained integer -/
  itemCountG : ℤ
  /-- drawn index permutation backing `random.sample(products, k)`:
  the sample is the length-`k` prefix -/
  sampleIdx : List ℕ
deriving DecidableEq

structure LineDraw where
  /-- value of `int(random.gauss(2, 1))` for the quantity -/
  quantityG : ℤ
  /-- outcome of `random.random()` for the discount test -/
  discountR : ℚ
  /-- outcome of `random.uniform(0.05, 0.25)` -/
  discountU : ℚ
deriving DecidableEq

structure PayDraw where
  /-- outcome of `random.uniform(0.05, 0.095)` -/
  taxRate : ℚ
  /-- outcome of `random.uniform(4.99, 14.99)` -/
  shipAmt : ℚ
  /-- drawn index behind `random.choices(PAYMENT_METHODS, weights)[0]` -/
  methodIdx : ℕ
  /-- outcome of `random.randint(5, 90)` encoded as `5 + delayN % 86` -/
  delayN : ℕ
deriving DecidableEq

/-- The draw streams one seeded run of the program consumes, indexed the
way the source consumes them (customers by customer index, order dates by
global order index, detail draws by order position, line draws by order
position and line position, payment draws by payment position). -/
structure Draws where
  cust : ℕ → CustDraw
  prod : ℕ → ProdDraw
  orderCount : ℕ → ℤ
  poissonCount : ℕ → ℤ
  orderDate : ℕ → OrderDateDraw
  detail : ℕ → DetailDraw
  line : ℕ → ℕ → LineDraw
  pay : ℕ → PayDraw

/-! ### `generate_customers` -/

/-- Python `random_name` (`random.choice` on the two name lists). -/
def random_name (d : CustDraw) : String :=
  (FIRST_NAMES.getD (d.firstIdx % FIRST_NAMES.length) "") ++ " " ++
    (LAST_NAMES.getD (d.lastIdx % LAST_NAMES.length) "")

/-- Python `random_email`. -/
def random_email (name : String) (d : CustDraw) : String :=
  let base := (name.toLower).replace " " "."
  let domain := EMAIL_DOMAINS.getD (d.domainIdx % EMAIL_DOMAINS.length) ""
  let suffix := if d.suffixR < 7/10 then "" else toString (1 + d.suffixN % 99)
  base ++ suffix ++ "@" ++ domain

/-- Python `random_phone`. -/
def random_phone (d : CustDraw) : String :=
  "+1-" ++ toString (200 + d.phoneA % 800) ++ "-" ++
    toString (200 + d.phoneB % 800) ++ "-" ++ toString (1000 + d.phoneC % 9000)

/-- Python `generate_customers(count)`; `now` is the minutes-since-epoch value of
`datetime.now()`, and `signup_date = (now - timedelta(days=r)).date()`. -/
def generate_customers (count : ℕ) (cd : ℕ → CustDraw) (now : ℤ) : List Customer :=
  (List.range count).map (fun i =>
    let d := cd i
    let name := random_name d
    { customer_id := i + 1
      name := name
      email := random_email name d
      phone := random_phone d
      state := STATES.getD (d.stateIdx % STATES.length) ""
      signup_date := dateOf (now - 1440 * (30 + d.signupN % 871 : ℕ)) })

/-! ### `generate_products` -/

/-- The catalog flattened in iteration order: (category, name, min, max). -/
def catalogFlat : List (String × String × ℤ × ℤ) :=
  PRODUCT_CATEGORIES.flatMap (fun ci => ci.2.map (fun it => (ci.1, it)))

def dfltProduct : Product := ⟨0, "", "", 0, 0⟩

def dfltEntry : String × String × ℤ × ℤ := ("", "", 0, 0)

/-- One product built from the catalog entry at 0-based position `i`
(`pid = i + 1`): `price = round(normalvariate(mid, range/6), 2)` then
`price = max(min_price, min(max_price, price))`. -/
def mkProduct (i : ℕ) (category name : String) (lo hi : ℤ) (d : ProdDraw) : Product :=
  let price0 := round2 d.gaussPrice
  let price := max (lo : ℚ) (min (hi : ℚ) price0)
  { product_id := i + 1
    name := name
    category := category
    unit_price := price
    stock := 50 + d.stockN % 451 }

/-- Python `generate_products()`. -/
def generate_products (pd : ℕ → ProdDraw) : List Product :=
  catalogFlat.enum.map (fun e => mkProduct e.1 e.2.1 e.2.2.1 e.2.2.2.1 e.2.2.2.2 (pd e.1))

/-! ### `generate_orders` -/

/-- Modelled from the spec: the source guards the Poisson branch with
`hasattr(random, "poisson")`, and Python's `random` module defines no
attribute named `poisson` (the spec calls the branch a fallback "if a
Poisson sampler is unavailable"), so the guard is `False`. -/
def randomHasPoisson : Bool := false

/-- Python `random_order_date(signup_date)`; `now` is `datetime.now()` in minutes. -/
def random_order_date (signup_date : ℤ) (now : ℤ) (d : OrderDateDraw) : ℤ :=
  let days_since_signup := dateOf now - signup_date
  let days_since_signup := if days_since_signup ≤ 0 then 1 else days_since_signup
  let delta_days := max 1 (min days_since_signup (d.gaussAbs : ℤ))
  let order_date := signup_date + delta_days
  order_date * 1440 + (8 + d.hourN % 14 : ℕ) * 60 + (d.minuteN % 60 : ℕ)

/-- The orders of one customer: order ids `oid, oid+1, ...`, order-date
draws taken at the global 0-based order index `oid - 1 + j`. -/
def ordersOfCustomer (c : Customer) (od : ℕ → OrderDateDraw) (now : ℤ)
    (oid : ℕ) (n : ℕ) : List Order :=
  (List.range n).map (fun j =>
    { order_id := oid + j
      customer_id := c.customer_id
      order_datetime := random_order_date c.signup_date now (od (oid - 1 + j))
      shipping_state := c.state })

/-- The customer loop of `generate_orders`, before the final sort; `cIdx`
is the 0-based customer position (for the order-count draw) and `oid` the
next order id. -/
def generate_ordersGo (cnt : ℕ → ℤ) (pcnt : ℕ → ℤ) (od : ℕ → OrderDateDraw)
    (now : ℤ) : List Customer → ℕ → ℕ → List Order
  | [], _, _ => []
  | c :: rest, cIdx, oid =>
    let orders_count :=
      (if randomHasPoisson then max 1 (pcnt cIdx) else max 1 (cnt cIdx)).toNat
    ordersOfCustomer c od now oid orders_count ++
      generate_ordersGo cnt pcnt od now rest (cIdx + 1) (oid + orders_count)

/-- Python `generate_orders(customers, avg_orders_per_customer=2.5)`; the final
`orders.sort(key=...)` is a stable sort by `order_datetime`.  The
`avg_orders_per_customer` parameter only feeds the samplers, whose
outcomes are the draws. -/
def generate_orders (cs : List Customer) (cnt : ℕ → ℤ) (pcnt : ℕ → ℤ)
    (od : ℕ → OrderDateDraw) (now : ℤ) (avg_orders_per_customer : ℚ) : List Order :=
  (generate_ordersGo cnt pcnt od now cs 0 1).mergeSort
    (fun a b => decide (a.order_datetime ≤ b.order_datetime))

/-- Helper for the variant of `generate_orders` with the dead Poisson branch removed. -/
def generate_ordersNoPoissonGo (cnt : ℕ → ℤ) (od : ℕ → OrderDateDraw)
    (now : ℤ) : List Customer → ℕ → ℕ → List Order
  | [], _, _ => []
  | c :: rest, cIdx, oid =>
    let orders_count := (max 1 (cnt cIdx)).toNat
    ordersOfCustomer c od now oid orders_count ++
      generate_ordersNoPoissonGo cnt od now rest (cIdx + 1) (oid + orders_count)

/-- Variant of `generate_orders` with the Poisson branch removed. -/
def generate_ordersNoPoisson (cs : List Customer) (cnt : ℕ → ℤ)
    (od : ℕ → OrderDateDraw) (now : ℤ) (avg_orders_per_customer : ℚ) : List Order :=
  (generate_ordersNoPoissonGo cnt od now cs 0 1).mergeSort
    (fun a b => decide (a.order_datetime ≤ b.order_datetime))

/-! ### `generate_order_details` -/

/-- The inner line loop of `generate_order_details` over one order's
chosen products: `j` is the line position (for the line draws) and `did`
the next detail id, both incremented per line. -/
def detailLines (o : Order) (ld : ℕ → LineDraw) :
    List Product → ℕ → ℕ → List OrderDetail
  | [], _, _ => []
  | product :: more, j, did =>
    let quantity := max 1 (ld j).quantityG
    let discount :=
      if (ld j).discountR < 7/10 then 0 else round2 (ld j).discountU
    { order_detail_id := did
      order_id := o.order_id
      product_id := product.product_id
      quantity := quantity
      unit_price := product.unit_price
      discount := discount
      line_total := round2 (product.unit_price * (quantity : ℚ) * (1 - discount)) }
      :: detailLines o ld more (j + 1) (did + 1)

/-- The order loop of `generate_order_details`: `i` is the 0-based order
position (for the draw streams) and `did` the next detail id;
`item_count = max(1, int(gauss(2,1)))`, the sample size is
`min(item_count, len(products))`. -/
def generate_order_detailsGo (products : List Product) (dd : ℕ → DetailDraw)
    (ld : ℕ → ℕ → LineDraw) : List Order → ℕ → ℕ → List OrderDetail
  | [], _, _ => []
  | o :: rest, i, did =>
    let item_count := max 1 (dd i).itemCountG
    let k := (min item_count (products.length : ℤ)).toNat
    let chosen := ((dd i).sampleIdx.take k).map (fun j => products.getD j dfltProduct)
    detailLines o (ld i) chosen 0 did ++
      generate_order_detailsGo products dd ld rest (i + 1) (did + chosen.length)

/-- Python `generate_order_details(orders, products)`. -/
def generate_order_details (orders : List Order) (products : List Product)
    (dd : ℕ → DetailDraw) (ld : ℕ → ℕ → LineDraw) : List OrderDetail :=
  generate_order_detailsGo products dd ld orders 0 1

/-! ### `generate_payments` -/

/-- Python `dict` accumulation `m.setdefault(k, 0); m[k] += v` on an association
list kept in key insertion order. -/
def addToAssoc {α : Type} [DecidableEq α] :
    List (α × ℚ) → α → ℚ → List (α × ℚ)
  | [], k, v => [(k, v)]
  | (k1, v1) :: rest, k, v =>
    if k = k1 then (k1, v1 + v) :: rest else (k1, v1) :: addToAssoc rest k v

/-- Accumulate keyed values into a dict (association list). -/
def accumAssoc {α : Type} [DecidableEq α] (rows : List (α × ℚ)) : List (α × ℚ) :=
  rows.foldl (fun acc r => addToAssoc acc r.1 r.2) []

/-- The `detail_totals` dict of `generate_payments`. -/
def detail_totals (order_details : List OrderDetail) : List (ℕ × ℚ) :=
  accumAssoc (order_details.map (fun d => (d.order_id, d.line_total)))

/-- The order loop of `generate_payments`; the dict lookup
`detail_totals[order["order_id"]]` raises `KeyError` when the key is
missing, modelled by `none`.  `pid` is the next payment id and also
(1-based) the payment-draw position. -/
def generate_paymentsGo (totals : List (ℕ × ℚ)) (pd : ℕ → PayDraw) :
    List Order → ℕ → Option (List Payment)
  | [], _ => some []
  | o :: rest, pid =>
    match totals.lookup o.order_id with
    | none => none
    | some gross =>
      let w := pd (pid - 1)
      let tax := round2 (gross * w.taxRate)
      let shipping := if (75 : ℚ) ≤ gross then 0 else round2 w.shipAmt
      let total := round2 (gross + tax + shipping)
      (generate_paymentsGo totals pd rest (pid + 1)).map (fun ps =>
        { payment_id := pid
          order_id := o.order_id
          payment_method := PAYMENT_METHODS.getD (w.methodIdx % PAYMENT_METHODS.length) ""
          payment_datetime := o.order_datetime + (5 + w.delayN % 86 : ℕ)
          subtotal := round2 gross
          tax := tax
          shipping := shipping
          total := total
          currency := "USD" } :: ps)

/-- Python `generate_payments(orders, order_details)`. -/
def generate_payments (orders : List Order) (order_details : List OrderDetail)
    (pd : ℕ → PayDraw) : Option (List Payment) :=
  generate_paymentsGo (detail_totals order_details) pd orders 1

/-! ### `main()` -/

/-- The row collections `main()` writes to the five CSV files. -/
structure Rows where
  customers : List Customer
  products : List Product
  orders : List Order
  order_details : List OrderDetail
  payments : Option (List Payment)
deriving DecidableEq

def mainCustomers (D : Draws) (now : ℤ) : List Customer :=
  generate_customers 200 D.cust now

def mainOrders (D : Draws) (now : ℤ) : List Order :=
  generate_orders (mainCustomers D now) D.orderCount D.poissonCount D.orderDate now (5/2)

def mainDetails (D : Draws) (now : ℤ) : List OrderDetail :=
  generate_order_details (mainOrders D now) (generate_products D.prod) D.detail D.line

def mainPayments (D : Draws) (now : ℤ) : Option (List Payment) :=
  generate_payments (mainOrders D now) (mainDetails D now) D.pay

/-- One run of `main()` (customer_count = 200) as a function of the seeded
draw streams and of `datetime.now()`. -/
def mainRows (D : Draws) (now : ℤ) : Rows :=
  { customers := mainCustomers D now
    products := generate_products D.prod
    orders := mainOrders D now
    order_details := mainDetails D now
    payments := mainPayments D now }

/-! ### The top-spender query (`query_top_spenders.py`) -/

/-- The rows of the three-way join of the `SQL` statement: one row per
(customer, order, order line, product) match, carrying `c.name` and
`od.quantity * od.unit_price`. -/
def sqlJoinRows (cs : List Customer) (os : List Order) (ds : List OrderDetail)
    (ps : List Product) : List (String × ℚ) :=
  cs.flatMap (fun c =>
    (os.filter (fun o => o.customer_id = c.customer_id)).flatMap (fun o =>
      (ds.filter (fun od => od.order_id = o.order_id)).flatMap (fun od =>
        (ps.filter (fun p => p.product_id = od.product_id)).map (fun _p =>
          (c.name, (od.quantity : ℚ) * od.unit_price)))))

/-- The `SQL` statement of `query_top_spenders.py`:
`GROUP BY c.name`, `ORDER BY total_spend DESC` (stable among ties in this
refinement; SQLite leaves tie order unspecified), `LIMIT 5`. -/
def top_spenders (cs : List Customer) (os : List Order) (ds : List OrderDetail)
    (ps : List Product) : List (String × ℚ) :=
  ((accumAssoc (sqlJoinRows cs os ds ps)).mergeSort
    (fun a b => decide (b.2 ≤ a.2))).take 5

/-- The spec reading of the query ("sum of quantity × unit_price per
customer"): the total spend of one customer over the same join. -/
def specCustomerSpend (c : Customer) (os : List Order) (ds : List OrderDetail)
    (ps : List Product) : ℚ :=
  ((sqlJoinRows [c] os ds ps).map (fun r => r.2)).sum

/-! ### Association-list (dict) lemmas -/

/-- Sum of the values a key carries in a keyed row list. -/
def keySum {α : Type} [DecidableEq α] (rows : List (α × ℚ)) (k : α) : ℚ :=
  ((rows.filter (fun r => r.1 = k)).map (fun r => r.2)).sum

theorem keySum_cons {α : Type} [DecidableEq α] (k1 : α) (v1 : ℚ)
    (rest : List (α × ℚ)) (q : α) :
    keySum ((k1, v1) :: rest) q = (if k1 = q then v1 else 0) + keySum rest q := by
  by_cases h : k1 = q <;> simp [keySum, List.filter_cons, h]

theorem lookup_addToAssoc {α : Type} [DecidableEq α]
    (acc : List (α × ℚ)) (k : α) (v : ℚ) (q : α) :
    (addToAssoc acc k v).lookup q =
      if q = k then some (((acc.lookup k).getD 0) + v) else acc.lookup q := by
  induction acc with
  | nil =>
    by_cases h : q = k
    · subst h
      simp [addToAssoc, List.lookup]
    · have hb : (q == k) = false := beq_false_of_ne h
      simp [addToAssoc, List.lookup, hb, h]
  | cons a rest ih =>
    obtain ⟨k1, v1⟩ := a
    by_cases hk : k = k1
    · subst hk
      by_cases hq : q = k
      · subst hq
        simp [addToAssoc, List.lookup]
      · have hb : (q == k) = false := beq_false_of_ne hq
        simp [addToAssoc, List.lookup, hb, hq]
    · have hbk : (k == k1) = false := beq_false_of_ne hk
      by_cases hq : q = k1
      · subst hq
        have hqk : ¬ q = k := fun h => hk h.symm
        have hb : (q == k) = false := beq_false_of_ne hqk
        simp [addToAssoc, hbk, if_neg hk, List.lookup, hqk]
      · have hbq : (q == k1) = false := beq_false_of_ne hq
        by_cases hq2 : q = k
        · subst hq2
          simp [addToAssoc, if_neg hk, List.lookup, hbq, ih]
        · simp [addToAssoc, if_neg hk, List.lookup, hbq, hq2, ih]

theorem keys_addToAssoc {α : Type} [DecidableEq α]
    (acc : List (α × ℚ)) (k : α) (v : ℚ) :
    (addToAssoc acc k v).map (fun r => r.1) =
      if k ∈ acc.map (fun r => r.1) then acc.map (fun r => r.1)
      else acc.map (fun r => r.1) ++ [k] := by
  induction acc with
  | nil => simp [addToAssoc]
  | cons a rest ih =>
    obtain ⟨k1, v1⟩ := a
    by_cases hk : k = k1
    · subst hk
      simp [addToAssoc]
    · by_cases hmem : k ∈ rest.map (fun r => r.1) <;>
        simp [addToAssoc, if_neg hk, hmem, ih, hk]

theorem keySum_addToAssoc {α : Type} [DecidableEq α]
    (acc : List (α × ℚ)) (k : α) (v : ℚ) (q : α) :
    keySum (addToAssoc acc k v) q = keySum acc q + if q = k then v else 0 := by
  induction acc with
  | nil =>
    by_cases h : q = k
    · subst h
      simp [addToAssoc, keySum_cons, keySum]
    · have h2 : ¬ k = q := fun e => h e.symm
      simp [addToAssoc, keySum_cons, keySum, h, h2]
  | cons a rest ih =>
    obtain ⟨k1, v1⟩ := a
    by_cases hk : k = k1
    · subst hk
      by_cases hq : k = q
      · subst hq
        simp [addToAssoc, keySum_cons]
        ring
      · have hq2 : ¬ q = k := fun e => hq e.symm
        simp [addToAssoc, keySum_cons, hq, hq2]
    · simp only [addToAssoc, if_neg hk, keySum_cons, ih]
      ring

theorem keySum_eq_zero_of_not_mem {α : Type} [DecidableEq α]
    {rows : List (α × ℚ)} {q : α} (h : q ∉ rows.map (fun r => r.1)) :
    keySum rows q = 0 := by
  induction rows with
  | nil => simp [keySum]
  | cons r rest ih =>
    obtain ⟨k1, v1⟩ := r
    simp only [List.map_cons, List.mem_cons] at h
    push_neg at h
    have hk : ¬ k1 = q := fun e => h.1 e.symm
    rw [keySum_cons, if_neg hk, ih h.2, add_zero]

theorem lookup_foldl_addToAssoc {α : Type} [DecidableEq α]
    (rows : List (α × ℚ)) (q : α) : ∀ acc : List (α × ℚ),
    (rows.foldl (fun a r => addToAssoc a r.1 r.2) acc).lookup q =
      if q ∈ rows.map (fun r => r.1)
      then some (((acc.lookup q).getD 0) + keySum rows q)
      else acc.lookup q := by
  induction rows with
  | nil => intro acc; simp
  | cons r rs ih =>
    intro acc
    obtain ⟨k1, v1⟩ := r
    simp only [List.foldl_cons, List.map_cons, List.mem_cons]
    rw [ih (addToAssoc acc k1 v1)]
    by_cases hq : q = k1
    · subst hq
      by_cases hmem : q ∈ rs.map (fun r => r.1)
      · simp [hmem, lookup_addToAssoc, keySum_cons, add_assoc]
      · simp [hmem, lookup_addToAssoc, keySum_cons,
          keySum_eq_zero_of_not_mem hmem]
    · have hk : ¬ k1 = q := fun e => hq e.symm
      rw [lookup_addToAssoc, if_neg hq, keySum_cons, if_neg hk, zero_add]
      by_cases hmem : q ∈ rs.map (fun r => r.1)
      · simp [hmem, hq]
      · simp [hmem, hq]

theorem lookup_accumAssoc {α : Type} [DecidableEq α]
    (rows : List (α × ℚ)) (q : α) :
    (accumAssoc rows).lookup q =
      if q ∈ rows.map (fun r => r.1) then some (keySum rows q) else none := by
  rw [accumAssoc, lookup_foldl_addToAssoc]
  by_cases hmem : q ∈ rows.map (fun r => r.1) <;>
    simp [hmem, List.lookup]

theorem nodup_keys_foldl_addToAssoc {α : Type} [DecidableEq α]
    (rows : List (α × ℚ)) : ∀ acc : List (α × ℚ),
    (acc.map (fun r => r.1)).Nodup →
    ((rows.foldl (fun a r => addToAssoc a r.1 r.2) acc).map (fun r => r.1)).Nodup := by
  induction rows with
  | nil => intro acc h; simpa using h
  | cons r rs ih =>
    intro acc h
    simp only [List.foldl_cons]
    refine ih (addToAssoc acc r.1 r.2) ?_
    rw [keys_addToAssoc]
    by_cases hmem : r.1 ∈ acc.map (fun x => x.1)
    · simpa [hmem] using h
    · simp [hmem, List.nodup_append, h]

theorem nodup_keys_accumAssoc {α : Type} [DecidableEq α]
    (rows : List (α × ℚ)) : ((accumAssoc rows).map (fun r => r.1)).Nodup :=
  nodup_keys_foldl_addToAssoc rows [] (by simp)

theorem keySum_foldl_addToAssoc {α : Type} [DecidableEq α]
    (rows : List (α × ℚ)) (q : α) : ∀ acc : List (α × ℚ),
    keySum (rows.foldl (fun a r => addToAssoc a r.1 r.2) acc) q =
      keySum acc q + keySum rows q := by
  induction rows with
  | nil => intro acc; simp [keySum]
  | cons r rs ih =>
    intro acc
    simp only [List.foldl_cons]
    rw [ih (addToAssoc acc r.1 r.2), keySum_addToAssoc]
    rcases r with ⟨k1, v1⟩
    rw [keySum_cons]
    by_cases hq : q = k1
    · subst hq
      simp only [if_pos rfl]
      ring
    · have hk : ¬ k1 = q := fun e => hq e.symm
      simp only [if_neg hq, if_neg hk]
      ring

theorem keySum_accumAssoc {α : Type} [DecidableEq α]
    (rows : List (α × ℚ)) (q : α) : keySum (accumAssoc rows) q = keySum rows q := by
  rw [accumAssoc, keySum_foldl_addToAssoc]
  simp [keySum]

theorem mem_assoc_eq_keySum {α : Type} [DecidableEq α]
    {acc : List (α × ℚ)} (hnd : (acc.map (fun r => r.1)).Nodup)
    {k : α} {s : ℚ} (hmem : (k, s) ∈ acc) : s = keySum acc k := by
  induction acc with
  | nil => cases hmem
  | cons a rest ih =>
    obtain ⟨k1, v1⟩ := a
    simp only [List.map_cons, List.nodup_cons] at hnd
    rcases List.mem_cons.mp hmem with h | h
    · obtain ⟨e1, e2⟩ := Prod.mk.injEq .. ▸ h
      cases h
      rw [keySum_cons, if_pos rfl,
        keySum_eq_zero_of_not_mem hnd.1, add_zero]
    · have hkmem : k ∈ rest.map (fun r => r.1) :=
        List.mem_map.mpr ⟨(k, s), h, rfl⟩
      have hne : ¬ k1 = k := fun e => hnd.1 (e ▸ hkmem)
      rw [keySum_cons, if_neg hne, ih hnd.2 h, zero_add]

/-! ### Claim C10: the Poisson branch is dead code -/

theorem generate_ordersGo_eq_noPoisson (cnt pcnt : ℕ → ℤ)
    (od : ℕ → OrderDateDraw) (now : ℤ) :
    ∀ (cs : List Customer) (cIdx oid : ℕ),
    generate_ordersGo cnt pcnt od now cs cIdx oid =
      generate_ordersNoPoissonGo cnt od now cs cIdx oid := by
  intro cs
  induction cs with
  | nil => intro cIdx oid; rfl
  | cons c rest ih =>
    intro cIdx oid
    simp only [generate_ordersGo, generate_ordersNoPoissonGo,
      randomHasPoisson, Bool.false_eq_true, if_false, ih]

/-- C10: `hasattr(random, "poisson")` is `False` on Python's `random`
module, so the Poisson branch of `generate_orders` is never taken: the
function equals the variant with the branch removed, every per-customer
order count being `max(1, int(gauss(avg_orders_per_customer, 1)))`. -/
theorem C10_poisson_branch_never_taken (cs : List Customer)
    (cnt pcnt : ℕ → ℤ) (od : ℕ → OrderDateDraw) (now : ℤ) (avg : ℚ) :
    generate_orders cs cnt pcnt od now avg =
      generate_ordersNoPoisson cs cnt od now avg := by
  rw [generate_orders, generate_ordersNoPoisson, generate_ordersGo_eq_noPoisson]

/-! ### Claim C8: the product catalog -/

theorem clamp_mem {lo hi x : ℚ} (h : lo ≤ hi) :
    lo ≤ max lo (min hi x) ∧ max lo (min hi x) ≤ hi :=
  ⟨le_max_left _ _, max_le h (min_le_left _ _)⟩

theorem generate_products_length (pd : ℕ → ProdDraw) :
    (generate_products pd).length = 20 := rfl

/-- C8: `generate_products` always returns exactly 20 products whose ids
are the sequence 1..20, and the `unit_price` of the product at each
position lies within the `[min_price, max_price]` bounds of the catalog
entry at that position. -/
theorem C8_generate_products_catalog (pd : ℕ → ProdDraw) :
    (generate_products pd).length = 20 ∧
    (generate_products pd).map (fun p => p.product_id) = List.range' 1 20 ∧
    ∀ i, i < (generate_products pd).length →
      (((catalogFlat.getD i dfltEntry).2.2.1 : ℚ) ≤
          ((generate_products pd).getD i dfltProduct).unit_price ∧
        ((generate_products pd).getD i dfltProduct).unit_price ≤
          ((catalogFlat.getD i dfltEntry).2.2.2 : ℚ)) := by
  refine ⟨rfl, rfl, ?_⟩
  intro i hi
  rw [generate_products_length] at hi
  interval_cases i <;> exact clamp_mem (by decide)

/-! ### Claim C7: order ids and the datetime sort -/

theorem ordersOfCustomer_length (c : Customer) (od : ℕ → OrderDateDraw)
    (now : ℤ) (oid n : ℕ) : (ordersOfCustomer c od now oid n).length = n := by
  simp [ordersOfCustomer]

theorem ordersOfCustomer_map_id (c : Customer) (od : ℕ → OrderDateDraw)
    (now : ℤ) (oid n : ℕ) :
    (ordersOfCustomer c od now oid n).map (fun o => o.order_id) =
      List.range' oid n := by
  rw [ordersOfCustomer, List.map_map, List.range'_eq_map_range]
  rfl

theorem generate_ordersGo_map_id (cnt pcnt : ℕ → ℤ) (od : ℕ → OrderDateDraw)
    (now : ℤ) : ∀ (cs : List Customer) (cIdx oid : ℕ),
    (generate_ordersGo cnt pcnt od now cs cIdx oid).map (fun o => o.order_id) =
      List.range' oid (generate_ordersGo cnt pcnt od now cs cIdx oid).length := by
  intro cs
  induction cs with
  | nil => intro cIdx oid; rfl
  | cons c rest ih =>
    intro cIdx oid
    simp only [generate_ordersGo, List.map_append, List.length_append,
      ordersOfCustomer_map_id, ordersOfCustomer_length, ih]
    rw [List.range'_append_1, Nat.add_comm]

/-- C7: `generate_orders` assigns sequential ids starting at 1 in
customer-then-order generation order (the pre-sort list built by
`generate_ordersGo`); the returned list is a permutation of that list,
is sorted by `order_datetime` ascending, and its multiset of ids is
exactly `{1..M}` for `M` the number of generated orders. -/
theorem C7_generate_orders_sorted_permutation (cs : List Customer)
    (cnt pcnt : ℕ → ℤ) (od : ℕ → OrderDateDraw) (now : ℤ) (avg : ℚ) :
    ((generate_ordersGo cnt pcnt od now cs 0 1).map (fun o => o.order_id) =
        List.range' 1 (generate_ordersGo cnt pcnt od now cs 0 1).length) ∧
    (generate_orders cs cnt pcnt od now avg).Perm
        (generate_ordersGo cnt pcnt od now cs 0 1) ∧
    (generate_orders cs cnt pcnt od now avg).Pairwise
        (fun a b => a.order_datetime ≤ b.order_datetime) ∧
    ((generate_orders cs cnt pcnt od now avg).map (fun o => o.order_id)).Perm
        (List.range' 1 (generate_ordersGo cnt pcnt od now cs 0 1).length) := by
  refine ⟨generate_ordersGo_map_id cnt pcnt od now cs 0 1,
    List.mergeSort_perm _ _, ?_, ?_⟩
  · have h := @List.sorted_mergeSort Order
      (fun a b => decide (a.order_datetime ≤ b.order_datetime))
      (fun a b c hab hbc => by
        simp only [decide_eq_true_eq] at hab hbc ⊢
        exact le_trans hab hbc)
      (fun a b => by
        simpa [Bool.or_eq_true, decide_eq_true_eq] using
          le_total a.order_datetime b.order_datetime)
      (generate_ordersGo cnt pcnt od now cs 0 1)
    exact h.imp (fun h2 => by simpa using h2)
  · have hperm := (List.mergeSort_perm
      (generate_ordersGo cnt pcnt od now cs 0 1)
      (fun a b => decide (a.order_datetime ≤ b.order_datetime))).map
      (fun o => o.order_id)
    rw [generate_ordersGo_map_id] at hperm
    exact hperm

/-! ### Claim C1: order-datetime bounds -/

theorem random_order_date_lower (s now : ℤ) (d : OrderDateDraw) :
    (s + 1) * 1440 ≤ random_order_date s now d := by
  simp only [random_order_date]
  split <;> omega

theorem random_order_date_upper (s now : ℤ) (d : OrderDateDraw)
    (hs : s < dateOf now) :
    random_order_date s now d ≤ dateOf now * 1440 + (21 * 60 + 59) := by
  simp only [random_order_date]
  split <;> omega

theorem mem_generate_ordersGo {cnt pcnt : ℕ → ℤ} {od : ℕ → OrderDateDraw}
    {now : ℤ} : ∀ {cs : List Customer} {cIdx oid : ℕ} {o : Order},
    o ∈ generate_ordersGo cnt pcnt od now cs cIdx oid →
    ∃ c ∈ cs, o.customer_id = c.customer_id ∧
      ∃ i, o.order_datetime = random_order_date c.signup_date now (od i) := by
  intro cs
  induction cs with
  | nil => intro cIdx oid o ho; cases ho
  | cons c rest ih =>
    intro cIdx oid o ho
    rw [generate_ordersGo, List.mem_append] at ho
    rcases ho with hb | hr
    · rw [ordersOfCustomer, List.mem_map] at hb
      obtain ⟨j, _, rfl⟩ := hb
      exact ⟨c, List.mem_cons_self .., rfl, _, rfl⟩
    · obtain ⟨c2, hc2, hcid, i, hdt⟩ := ih hr
      exact ⟨c2, List.mem_cons_of_mem _ hc2, hcid, i, hdt⟩

theorem generate_customers_signup_lt (count : ℕ) (cd : ℕ → CustDraw)
    (now : ℤ) : ∀ c ∈ generate_customers count cd now,
    c.signup_date < dateOf now := by
  intro c hc
  rw [generate_customers, List.mem_map] at hc
  obtain ⟨i, _, rfl⟩ := hc
  show dateOf (now - 1440 * ((30 + (cd i).signupN % 871 : ℕ) : ℤ)) < dateOf now
  rw [dateOf_sub_days]
  have : (0 : ℤ) < ((30 + (cd i).signupN % 871 : ℕ) : ℤ) := by
    push_cast
    omega
  omega

/-- C1 (amended): for every order produced by the pipeline, the owning
customer exists, `order_datetime` is at least `signup_date + 1` day, and
`order_datetime` is at most 21:59 on the generation date `dateOf now` —
not at most the generation instant `now` itself, which the counterexample
refutes. -/
theorem C1_order_datetime_bounds (count : ℕ) (D : Draws) (now : ℤ) (avg : ℚ) :
    ∀ o ∈ generate_orders (generate_customers count D.cust now)
        D.orderCount D.poissonCount D.orderDate now avg,
      ∃ c ∈ generate_customers count D.cust now,
        o.customer_id = c.customer_id ∧
        (c.signup_date + 1) * 1440 ≤ o.order_datetime ∧
        o.order_datetime ≤ dateOf now * 1440 + (21 * 60 + 59) := by
  intro o ho
  rw [generate_orders, List.mem_mergeSort] at ho
  obtain ⟨c, hc, hcid, i, hdt⟩ := mem_generate_ordersGo ho
  refine ⟨c, hc, hcid, ?_, ?_⟩
  · rw [hdt]
    exact random_order_date_lower ..
  · rw [hdt]
    exact random_order_date_upper _ _ _
      (generate_customers_signup_lt count D.cust now c hc)

/-- Draw streams with all-zero draws except one order per customer and a
known product price. -/
def drawsA : Draws :=
  { cust := fun _ => ⟨0, 0, 0, 0, 0, 0, 0, 0, 0, 0⟩
    prod := fun _ => ⟨100, 0⟩
    orderCount := fun _ => 1
    poissonCount := fun _ => 0
    orderDate := fun _ => ⟨0, 0, 0⟩
    detail := fun _ => ⟨1, List.range 20⟩
    line := fun _ _ => ⟨1, 0, 0⟩
    pay := fun _ => ⟨1/20, 5, 0, 0⟩ }

/-- Draw streams whose single order falls on the generation day at 21:59
(gauss offset 30 days on a 30-day-old signup, hour draw 21, minute 59). -/
def drawsLate : Draws :=
  { cust := fun _ => ⟨0, 0, 0, 0, 0, 0, 0, 0, 0, 0⟩
    prod := fun _ => ⟨100, 0⟩
    orderCount := fun _ => 1
    poissonCount := fun _ => 0
    orderDate := fun _ => ⟨30, 13, 59⟩
    detail := fun _ => ⟨1, List.range 20⟩
    line := fun _ _ => ⟨1, 0, 0⟩
    pay := fun _ => ⟨1/20, 5, 0, 0⟩ }

/-- C1 fails as stated: when the generator runs at midnight
(`now = 1440000` minutes = day 1000, 00:00), a customer who signed up 30
days earlier can receive an order dated the generation day at 21:59,
i.e. strictly after the generation instant `now`. -/
theorem C1_counterexample :
    ∃ o ∈ generate_orders (generate_customers 1 drawsLate.cust 1440000)
        drawsLate.orderCount drawsLate.poissonCount drawsLate.orderDate
        1440000 (5/2),
      1440000 < o.order_datetime := by
  rw [generate_orders,
    show generate_ordersGo drawsLate.orderCount drawsLate.poissonCount
        drawsLate.orderDate 1440000
        (generate_customers 1 drawsLate.cust 1440000) 0 1 =
      [⟨1, 1, 1441319, "CA"⟩] from by decide,
    List.mergeSort_singleton]
  decide

def orderW : Order := ⟨1, 1, 1398720, "CA"⟩

theorem C1_order_datetime_bounds_witness :
    (orderW ∈ generate_orders (generate_customers 1 drawsA.cust 1440000)
        drawsA.orderCount drawsA.poissonCount drawsA.orderDate 1440000 (5/2)) ∧
    ∃ c ∈ generate_customers 1 drawsA.cust 1440000,
      orderW.customer_id = c.customer_id ∧
      (c.signup_date + 1) * 1440 ≤ orderW.order_datetime ∧
      orderW.order_datetime ≤ dateOf 1440000 * 1440 + (21 * 60 + 59) := by
  have hmem : orderW ∈ generate_orders (generate_customers 1 drawsA.cust 1440000)
      drawsA.orderCount drawsA.poissonCount drawsA.orderDate 1440000 (5/2) := by
    rw [generate_orders,
      show generate_ordersGo drawsA.orderCount drawsA.poissonCount
          drawsA.orderDate 1440000
          (generate_customers 1 drawsA.cust 1440000) 0 1 =
        [orderW] from by decide,
      List.mergeSort_singleton]
    exact List.mem_singleton.mpr rfl
  exact ⟨hmem, C1_order_datetime_bounds 1 drawsA 1440000 (5/2) orderW hmem⟩

/-! ### Claim C2: reproducibility across runs -/

theorem generate_customers_congr_now {n1 n2 : ℤ} (h : dateOf n1 = dateOf n2)
    (count : ℕ) (cd : ℕ → CustDraw) :
    generate_customers count cd n1 = generate_customers count cd n2 := by
  rw [generate_customers, generate_customers]
  refine List.map_congr_left ?_
  intro i _
  simp [dateOf_sub_days, h]

theorem random_order_date_congr_now {n1 n2 : ℤ} (h : dateOf n1 = dateOf n2)
    (s : ℤ) (d : OrderDateDraw) :
    random_order_date s n1 d = random_order_date s n2 d := by
  simp [random_order_date, h]

theorem ordersOfCustomer_congr_now {n1 n2 : ℤ} (h : dateOf n1 = dateOf n2)
    (c : Customer) (od : ℕ → OrderDateDraw) (oid n : ℕ) :
    ordersOfCustomer c od n1 oid n = ordersOfCustomer c od n2 oid n := by
  rw [ordersOfCustomer, ordersOfCustomer]
  refine List.map_congr_left ?_
  intro j _
  simp [random_order_date_congr_now h]

theorem generate_ordersGo_congr_now {n1 n2 : ℤ} (h : dateOf n1 = dateOf n2)
    (cnt pcnt : ℕ → ℤ) (od : ℕ → OrderDateDraw) :
    ∀ (cs : List Customer) (cIdx oid : ℕ),
    generate_ordersGo cnt pcnt od n1 cs cIdx oid =
      generate_ordersGo cnt pcnt od n2 cs cIdx oid := by
  intro cs
  induction cs with
  | nil => intro cIdx oid; rfl
  | cons c rest ih =>
    intro cIdx oid
    simp only [generate_ordersGo, ordersOfCustomer_congr_now h, ih]

theorem generate_orders_congr_now {n1 n2 : ℤ} (h : dateOf n1 = dateOf n2)
    (cs : List Customer) (cnt pcnt : ℕ → ℤ) (od : ℕ → OrderDateDraw) (avg : ℚ) :
    generate_orders cs cnt pcnt od n1 avg = generate_orders cs cnt pcnt od n2 avg := by
  rw [generate_orders, generate_orders, generate_ordersGo_congr_now h]

/-- C2 (amended): with the same seed (hence identical draw streams), two
runs of `main()` produce identical row collections — hence byte-identical
CSV files — provided they run on the same generation date
(`dateOf now` equal); the counterexample shows runs on different days
differ even with the same seed. -/
theorem C2_same_seed_same_day_identical (D : Draws) (n1 n2 : ℤ)
    (h : dateOf n1 = dateOf n2) : mainRows D n1 = mainRows D n2 := by
  have hc : mainCustomers D n1 = mainCustomers D n2 :=
    generate_customers_congr_now h 200 D.cust
  have ho : mainOrders D n1 = mainOrders D n2 := by
    rw [mainOrders, mainOrders, hc, generate_orders_congr_now h]
  have hd : mainDetails D n1 = mainDetails D n2 := by
    rw [mainDetails, mainDetails, ho]
  have hp : mainPayments D n1 = mainPayments D n2 := by
    rw [mainPayments, mainPayments, ho, hd]
  rw [mainRows, mainRows, hc, ho, hd, hp]

/-- C2 fails as stated: the same seed does not give byte-identical output
across arbitrary runs, because `datetime.now()` enters the data.  With
identical draw streams, a run at day 1000 and a run at day 1001 already
differ in the first customer's `signup_date` (970 vs 971). -/
theorem C2_counterexample :
    mainRows drawsA 1440000 ≠ mainRows drawsA (1440000 + 1440) := by
  intro h
  have h2 := congrArg (fun r => r.customers.head?.map (fun c => c.signup_date)) h
  exact absurd h2 (by decide)

theorem C2_same_seed_same_day_identical_witness :
    dateOf 100 = dateOf 200 ∧ mainRows drawsA 100 = mainRows drawsA 200 :=
  ⟨by decide, C2_same_seed_same_day_identical drawsA 100 200 (by decide)⟩

/-! ### Claim C6: distinct products per order, line count -/

theorem detailLines_order_id (o : Order) (ld : ℕ → LineDraw) :
    ∀ (chosen : List Product) (j did : ℕ),
    ∀ d ∈ detailLines o ld chosen j did, d.order_id = o.order_id := by
  intro chosen
  induction chosen with
  | nil => intro j did d hd; cases hd
  | cons p more ih =>
    intro j did d hd
    rcases List.mem_cons.mp hd with h | h
    · subst h; rfl
    · exact ih (j + 1) (did + 1) d h

theorem detailLines_length (o : Order) (ld : ℕ → LineDraw) :
    ∀ (chosen : List Product) (j did : ℕ),
    (detailLines o ld chosen j did).length = chosen.length := by
  intro chosen
  induction chosen with
  | nil => intro j did; rfl
  | cons p more ih => intro j did; simp [detailLines, ih]

theorem detailLines_map_product_id (o : Order) (ld : ℕ → LineDraw) :
    ∀ (chosen : List Product) (j did : ℕ),
    (detailLines o ld chosen j did).map (fun d => d.product_id) =
      chosen.map (fun p => p.product_id) := by
  intro chosen
  induction chosen with
  | nil => intro j did; rfl
  | cons p more ih => intro j did; simp [detailLines, ih]

theorem detailLines_line_total (o : Order) (ld : ℕ → LineDraw) :
    ∀ (chosen : List Product) (j did : ℕ),
    ∀ d ∈ detailLines o ld chosen j did, ∃ x, d.line_total = round2 x := by
  intro chosen
  induction chosen with
  | nil => intro j did d hd; cases hd
  | cons p more ih =>
    intro j did d hd
    rcases List.mem_cons.mp hd with h | h
    · subst h; exact ⟨_, rfl⟩
    · exact ih (j + 1) (did + 1) d h

theorem mem_detailsGo_order_id (products : List Product) (dd : ℕ → DetailDraw)
    (ld : ℕ → ℕ → LineDraw) : ∀ (os : List Order) (i did : ℕ),
    ∀ d ∈ generate_order_detailsGo products dd ld os i did,
    ∃ o ∈ os, d.order_id = o.order_id := by
  intro os
  induction os with
  | nil => intro i did d hd; cases hd
  | cons o rest ih =>
    intro i did d hd
    rw [generate_order_detailsGo, List.mem_append] at hd
    rcases hd with h | h
    · exact ⟨o, List.mem_cons_self .., detailLines_order_id o (ld i) _ 0 did d h⟩
    · obtain ⟨o2, ho2, he⟩ := ih (i + 1) _ d h
      exact ⟨o2, List.mem_cons_of_mem _ ho2, he⟩

theorem mem_detailsGo_line_total (products : List Product) (dd : ℕ → DetailDraw)
    (ld : ℕ → ℕ → LineDraw) : ∀ (os : List Order) (i did : ℕ),
    ∀ d ∈ generate_order_detailsGo products dd ld os i did,
    ∃ x, d.line_total = round2 x := by
  intro os
  induction os with
  | nil => intro i did d hd; cases hd
  | cons o rest ih =>
    intro i did d hd
    rw [generate_order_detailsGo, List.mem_append] at hd
    rcases hd with h | h
    · exact detailLines_line_total o (ld i) _ 0 did d h
    · exact ih (i + 1) _ d h

/-- The chosen product list for the order at position `i`. -/
def chosenProducts (products : List Product) (dd : ℕ → DetailDraw) (i : ℕ) :
    List Product :=
  ((dd i).sampleIdx.take
      ((min (max 1 (dd i).itemCountG) (products.length : ℤ)).toNat)).map
    (fun j => products.getD j dfltProduct)

theorem detailsGo_filter_block (products : List Product) (dd : ℕ → DetailDraw)
    (ld : ℕ → ℕ → LineDraw) : ∀ (os : List Order) (i did : ℕ)
    (j : ℕ) (hj : j < os.length),
    (os.map (fun o => o.order_id)).Nodup →
    ∃ did2, (generate_order_detailsGo products dd ld os i did).filter
        (fun d => d.order_id = (os.get ⟨j, hj⟩).order_id) =
      detailLines (os.get ⟨j, hj⟩) (ld (i + j)) (chosenProducts products dd (i + j))
        0 did2 := by
  intro os
  induction os with
  | nil => intro i did j hj; cases (Nat.not_lt_zero j) hj
  | cons o rest ih =>
    intro i did j hj hnd
    simp only [List.map_cons, List.nodup_cons] at hnd
    match j with
    | 0 =>
      refine ⟨did, ?_⟩
      have hget0 : (((o :: rest) : List Order).get ⟨0, hj⟩) = o := rfl
      rw [generate_order_detailsGo, List.filter_append]
      have h1 : (detailLines o (ld i) (chosenProducts products dd i) 0 did).filter
          (fun d => d.order_id = (((o :: rest) : List Order).get ⟨0, hj⟩).order_id) =
          detailLines o (ld i) (chosenProducts products dd i) 0 did := by
        rw [List.filter_eq_self]
        intro d hd
        rw [hget0]
        exact decide_eq_true (detailLines_order_id o (ld i) _ 0 did d hd)
      have h2 : (generate_order_detailsGo products dd ld rest (i + 1)
            (did + (chosenProducts products dd i).length)).filter
          (fun d => d.order_id = (((o :: rest) : List Order).get ⟨0, hj⟩).order_id) = [] := by
        rw [List.filter_eq_nil_iff]
        intro d hd
        obtain ⟨o2, ho2, he⟩ := mem_detailsGo_order_id products dd ld rest _ _ d hd
        intro hcontra
        rw [decide_eq_true_eq, hget0] at hcontra
        refine hnd.1 ?_
        rw [← hcontra, he]
        exact List.mem_map_of_mem (fun x => x.order_id) ho2
      rw [show (chosenProducts products dd i) =
          ((dd i).sampleIdx.take
            ((min (max 1 (dd i).itemCountG) (products.length : ℤ)).toNat)).map
            (fun x => products.getD x dfltProduct) from rfl] at h1 h2
      rw [h1, h2, List.append_nil, Nat.add_zero]
      rfl
    | j2 + 1 =>
      have hj2 : j2 < rest.length := by
        simpa using Nat.lt_of_succ_lt_succ hj
      have hget : (((o :: rest) : List Order).get ⟨j2 + 1, hj⟩) =
          rest.get ⟨j2, hj2⟩ := rfl
      rw [generate_order_detailsGo, List.filter_append]
      have h1 : (detailLines o (ld i) (chosenProducts products dd i) 0 did).filter
          (fun d => d.order_id =
            (((o :: rest) : List Order).get ⟨j2 + 1, hj⟩).order_id) = [] := by
        rw [List.filter_eq_nil_iff]
        intro d hd
        have hdo := detailLines_order_id o (ld i) _ 0 did d hd
        intro hcontra
        rw [decide_eq_true_eq, hget] at hcontra
        refine hnd.1 ?_
        rw [← hdo, hcontra]
        exact List.mem_map_of_mem (fun x => x.order_id) (rest.get_mem ..)
      obtain ⟨did2, hrest⟩ := ih (i + 1)
        (did + (chosenProducts products dd i).length) j2 hj2 hnd.2
      refine ⟨did2, ?_⟩
      rw [show (chosenProducts products dd i) =
          ((dd i).sampleIdx.take
            ((min (max 1 (dd i).itemCountG) (products.length : ℤ)).toNat)).map
            (fun x => products.getD x dfltProduct) from rfl] at h1
      rw [h1, List.nil_append, hget]
      rw [show i + 1 + j2 = i + (j2 + 1) from by omega] at hrest
      exact hrest

theorem generate_products_getD_product_id (pd : ℕ → ProdDraw) (x : ℕ)
    (hx : x < 20) :
    ((generate_products pd).getD x dfltProduct).product_id = x + 1 := by
  interval_cases x <;> rfl

/-- C6: with orders carrying distinct ids and sample draws that are
permutations of the product positions (the contract of `random.sample`),
the lines of each order reference pairwise distinct products, and their
number is `min(item_count, catalog size)` where
`item_count = max(1, int(gauss(2, 1)))`. -/
theorem C6_distinct_products_per_order (orders : List Order)
    (pd : ℕ → ProdDraw) (dd : ℕ → DetailDraw) (ld : ℕ → ℕ → LineDraw)
    (hnd : (orders.map (fun o => o.order_id)).Nodup)
    (hs : ∀ i, (dd i).sampleIdx.Perm (List.range (generate_products pd).length)) :
    ∀ (j : ℕ) (hj : j < orders.length),
      ((((generate_order_details orders (generate_products pd) dd ld).filter
          (fun d => d.order_id = (orders.get ⟨j, hj⟩).order_id)).map
        (fun d => d.product_id)).Nodup) ∧
      ((generate_order_details orders (generate_products pd) dd ld).filter
          (fun d => d.order_id = (orders.get ⟨j, hj⟩).order_id)).length =
        min (max 1 (dd j).itemCountG).toNat (generate_products pd).length := by
  intro j hj
  obtain ⟨did2, hfil⟩ :=
    detailsGo_filter_block (generate_products pd) dd ld orders 0 1 j hj hnd
  rw [Nat.zero_add] at hfil
  rw [generate_order_details, hfil]
  have hlenS : (dd j).sampleIdx.length = (generate_products pd).length :=
    (hs j).length_eq
  have hmemS : ∀ x ∈ (dd j).sampleIdx, x < (generate_products pd).length := by
    intro x hx
    have hr := (hs j).mem_iff.mp hx
    simpa using hr
  have hndS : (dd j).sampleIdx.Nodup := (hs j).symm.nodup (List.nodup_range _)
  constructor
  · rw [detailLines_map_product_id, chosenProducts, List.map_map]
    have htake_nd : ((dd j).sampleIdx.take
        ((min (max 1 (dd j).itemCountG)
          ((generate_products pd).length : ℤ)).toNat)).Nodup :=
      hndS.sublist (List.take_sublist ..)
    have hmapeq : (((dd j).sampleIdx.take
          ((min (max 1 (dd j).itemCountG)
            ((generate_products pd).length : ℤ)).toNat)).map
        ((fun p => p.product_id) ∘ (fun x => (generate_products pd).getD x dfltProduct))) =
        (((dd j).sampleIdx.take
          ((min (max 1 (dd j).itemCountG)
            ((generate_products pd).length : ℤ)).toNat)).map (fun x => x + 1)) := by
      refine List.map_congr_left ?_
      intro x hx
      have hxlt : x < 20 :=
        hmemS x (List.take_subset _ _ hx)
      exact generate_products_getD_product_id pd x hxlt
    rw [hmapeq]
    exact htake_nd.map (fun a b h => by omega)
  · rw [detailLines_length, chosenProducts, List.length_map,
      List.length_take, hlenS]
    omega

/-! ### Claims C4, C5, C9: payments -/

theorem Cents_sum : ∀ {l : List ℚ}, (∀ x ∈ l, Cents x) → Cents l.sum := by
  intro l
  induction l with
  | nil => intro h; simpa using Cents.zero
  | cons x xs ih =>
    intro h
    rw [List.sum_cons]
    exact (h x (List.mem_cons_self ..)).add
      (ih fun y hy => h y (List.mem_cons_of_mem _ hy))

theorem keySum_details (ds : List OrderDetail) (k : ℕ) :
    keySum (ds.map (fun d => (d.order_id, d.line_total))) k =
      ((ds.filter (fun d => d.order_id = k)).map (fun d => d.line_total)).sum := by
  induction ds with
  | nil => simp [keySum]
  | cons d rest ih =>
    rw [List.map_cons, keySum_cons, List.filter_cons]
    by_cases h : d.order_id = k
    · simp [h, ih]
    · simp [h, ih]

theorem generate_paymentsGo_fields (totals : List (ℕ × ℚ)) (pd : ℕ → PayDraw) :
    ∀ (os : List Order) (pid : ℕ) (ps : List Payment),
    generate_paymentsGo totals pd os pid = some ps →
    ∀ p ∈ ps, ∃ gross, totals.lookup p.order_id = some gross ∧
      p.subtotal = round2 gross ∧ Cents p.tax ∧ Cents p.shipping ∧
      ((75 : ℚ) ≤ gross → p.shipping = 0) ∧
      p.total = round2 (gross + p.tax + p.shipping) := by
  intro os
  induction os with
  | nil =>
    intro pid ps h p hp
    rw [generate_paymentsGo] at h
    cases h
    cases hp
  | cons o rest ih =>
    intro pid ps h p hp
    rw [generate_paymentsGo] at h
    cases hl : totals.lookup o.order_id with
    | none =>
      simp only [hl] at h
      cases h
    | some gross =>
      simp only [hl] at h
      cases hrec : generate_paymentsGo totals pd rest (pid + 1) with
      | none =>
        simp only [hrec, Option.map_none'] at h
        cases h
      | some ps2 =>
        simp only [hrec, Option.map_some'] at h
        injection h with h
        subst h
        rcases List.mem_cons.mp hp with hph | hpt
        · subst hph
          refine ⟨gross, hl, rfl, ⟨_, rfl⟩, ?_, ?_, rfl⟩
          · show Cents (if (75 : ℚ) ≤ gross then 0
              else round2 (pd (pid - 1)).shipAmt)
            by_cases hg : (75 : ℚ) ≤ gross
            · rw [if_pos hg]; exact Cents.zero
            · rw [if_neg hg]; exact Cents.round2 _
          · intro hg
            show (if (75 : ℚ) ≤ gross then 0
              else round2 (pd (pid - 1)).shipAmt) = 0
            rw [if_pos hg]
        · exact ih (pid + 1) ps2 hrec p hpt

theorem generate_paymentsGo_ids (totals : List (ℕ × ℚ)) (pd : ℕ → PayDraw) :
    ∀ (os : List Order) (pid : ℕ) (ps : List Payment),
    generate_paymentsGo totals pd os pid = some ps →
    ps.map (fun p => p.order_id) = os.map (fun o => o.order_id) := by
  intro os
  induction os with
  | nil =>
    intro pid ps h
    rw [generate_paymentsGo] at h
    cases h
    rfl
  | cons o rest ih =>
    intro pid ps h
    rw [generate_paymentsGo] at h
    cases hl : totals.lookup o.order_id with
    | none =>
      simp only [hl] at h
      cases h
    | some gross =>
      simp only [hl] at h
      cases hrec : generate_paymentsGo totals pd rest (pid + 1) with
      | none =>
        simp only [hrec, Option.map_none'] at h
        cases h
      | some ps2 =>
        simp only [hrec, Option.map_some'] at h
        injection h with h
        subst h
        simp only [List.map_cons, ih (pid + 1) ps2 hrec]

theorem generate_paymentsGo_isSome (totals : List (ℕ × ℚ)) (pd : ℕ → PayDraw) :
    ∀ (os : List Order) (pid : ℕ),
    (∀ o ∈ os, (totals.lookup o.order_id).isSome) →
    (generate_paymentsGo totals pd os pid).isSome := by
  intro os
  induction os with
  | nil => intro pid _; rw [generate_paymentsGo]; rfl
  | cons o rest ih =>
    intro pid hall
    obtain ⟨gross, hl⟩ :=
      Option.isSome_iff_exists.mp (hall o (List.mem_cons_self ..))
    obtain ⟨ps2, hrec⟩ := Option.isSome_iff_exists.mp
      (ih (pid + 1) (fun o2 ho2 => hall o2 (List.mem_cons_of_mem _ ho2)))
    rw [generate_paymentsGo]
    simp only [hl, hrec, Option.map_some']
    rfl

theorem generate_paymentsGo_per_order (totals : List (ℕ × ℚ)) (pd : ℕ → PayDraw) :
    ∀ (os : List Order) (pid : ℕ) (ps : List Payment),
    generate_paymentsGo totals pd os pid = some ps →
    ∀ o ∈ os, ∃ p ∈ ps, p.order_id = o.order_id ∧
      ∃ gross, totals.lookup o.order_id = some gross ∧
        p.subtotal = round2 gross := by
  intro os
  induction os with
  | nil => intro pid ps h o ho; cases ho
  | cons o1 rest ih =>
    intro pid ps h o ho
    rw [generate_paymentsGo] at h
    cases hl : totals.lookup o1.order_id with
    | none =>
      simp only [hl] at h
      cases h
    | some gross =>
      simp only [hl] at h
      cases hrec : generate_paymentsGo totals pd rest (pid + 1) with
      | none =>
        simp only [hrec, Option.map_none'] at h
        cases h
      | some ps2 =>
        simp only [hrec, Option.map_some'] at h
        injection h with h
        subst h
        rcases List.mem_cons.mp ho with hoh | hot
        · subst hoh
          exact ⟨_, List.mem_cons_self .., rfl, gross, hl, rfl⟩
        · obtain ⟨p, hpmem, hpid, g2, hg2, hsub⟩ := ih (pid + 1) ps2 hrec o hot
          exact ⟨p, List.mem_cons_of_mem _ hpmem, hpid, g2, hg2, hsub⟩

theorem detail_totals_lookup_cents {products : List Product}
    {dd : ℕ → DetailDraw} {ld : ℕ → ℕ → LineDraw}
    {os : List Order} {k : ℕ} {g : ℚ}
    (h : (detail_totals (generate_order_details os products dd ld)).lookup k =
      some g) : Cents g := by
  rw [detail_totals, lookup_accumAssoc] at h
  by_cases hmem : k ∈ ((generate_order_details os products dd ld).map
      (fun d => (d.order_id, d.line_total))).map (fun r => r.1)
  · rw [if_pos hmem] at h
    injection h with h
    subst h
    rw [keySum_details]
    refine Cents_sum ?_
    intro x hx
    rw [List.mem_map] at hx
    obtain ⟨d, hd, rfl⟩ := hx
    obtain ⟨y, hy⟩ := mem_detailsGo_line_total products dd ld os 0 1 d
      (List.mem_filter.mp hd).1
    rw [hy]
    exact Cents.round2 _
  · rw [if_neg hmem] at h
    cases h

/-- C4: for every payment the pipeline generates,
`total = subtotal + tax + shipping` holds exactly (all four are whole
numbers of cents, so the final rounding is the identity), and
`shipping = 0` whenever `subtotal ≥ 75`. -/
theorem C4_payment_totals (orders : List Order) (products : List Product)
    (dd : ℕ → DetailDraw) (ld : ℕ → ℕ → LineDraw) (pd : ℕ → PayDraw)
    (pays : List Payment)
    (h : generate_payments orders
        (generate_order_details orders products dd ld) pd = some pays) :
    ∀ p ∈ pays, p.total = p.subtotal + p.tax + p.shipping ∧
      ((75 : ℚ) ≤ p.subtotal → p.shipping = 0) := by
  intro p hp
  rw [generate_payments] at h
  obtain ⟨gross, hl, hsub, htax, hship, hship75, htot⟩ :=
    generate_paymentsGo_fields _ pd orders 1 pays h p hp
  have hg : Cents gross := detail_totals_lookup_cents hl
  have hsubeq : p.subtotal = gross := by rw [hsub, round2_eq_self hg]
  constructor
  · rw [htot, hsubeq, round2_eq_self ((hg.add htax).add hship)]
  · intro h75
    rw [hsubeq] at h75
    exact hship75 h75

/-- C5: for every order, the payment generated for it has a subtotal
within 0.01 of the sum of that order's line totals (in fact they are
exactly equal). -/
theorem C5_line_totals_match_subtotal (orders : List Order)
    (products : List Product) (dd : ℕ → DetailDraw) (ld : ℕ → ℕ → LineDraw)
    (pd : ℕ → PayDraw) (pays : List Payment)
    (h : generate_payments orders
        (generate_order_details orders products dd ld) pd = some pays) :
    ∀ o ∈ orders, ∃ p ∈ pays, p.order_id = o.order_id ∧
      |(((generate_order_details orders products dd ld).filter
          (fun d => d.order_id = o.order_id)).map
        (fun d => d.line_total)).sum - p.subtotal| ≤ 1 / 100 := by
  intro o ho
  rw [generate_payments] at h
  obtain ⟨p, hpmem, hpid, gross, hl, hsub⟩ :=
    generate_paymentsGo_per_order _ pd orders 1 pays h o ho
  have hg : Cents gross := detail_totals_lookup_cents hl
  refine ⟨p, hpmem, hpid, ?_⟩
  have hsum : gross = (((generate_order_details orders products dd ld).filter
      (fun d => d.order_id = o.order_id)).map (fun d => d.line_total)).sum := by
    rw [detail_totals, lookup_accumAssoc] at hl
    by_cases hmem : o.order_id ∈ ((generate_order_details orders products dd ld).map
        (fun d => (d.order_id, d.line_total))).map (fun r => r.1)
    · rw [if_pos hmem] at hl
      injection hl with hl
      rw [← hl, keySum_details]
    · rw [if_neg hmem] at hl
      cases hl
  rw [← hsum, hsub, round2_eq_self hg, sub_self, abs_zero]
  norm_num

theorem detailsGo_exists_line (products : List Product) (dd : ℕ → DetailDraw)
    (ld : ℕ → ℕ → LineDraw)
    (hpos : ∀ i, 1 ≤ (chosenProducts products dd i).length) :
    ∀ (os : List Order) (i did : ℕ), ∀ o ∈ os,
    ∃ d ∈ generate_order_detailsGo products dd ld os i did,
      d.order_id = o.order_id := by
  intro os
  induction os with
  | nil => intro i did o ho; cases ho
  | cons o1 rest ih =>
    intro i did o ho
    rcases List.mem_cons.mp ho with hoh | hot
    · subst hoh
      have hlen : 0 < (detailLines o (ld i) (chosenProducts products dd i) 0 did).length := by
        rw [detailLines_length]
        exact hpos i
      obtain ⟨d, hd⟩ := List.exists_mem_of_length_pos hlen
      refine ⟨d, ?_, detailLines_order_id o (ld i) _ 0 did d hd⟩
      rw [generate_order_detailsGo, List.mem_append]
      exact Or.inl hd
    · obtain ⟨d, hd, he⟩ := ih (i + 1) (did + (chosenProducts products dd i).length) o hot
      refine ⟨d, ?_, he⟩
      rw [generate_order_detailsGo, List.mem_append]
      exact Or.inr hd

/-- C9: under the `random.sample` contract, every generated order has at
least one order line, `generate_payments` succeeds on the pipeline's data
(its `KeyError` branch is unreachable), and it emits exactly one payment
per order, in order. -/
theorem C9_one_payment_per_order (cs : List Customer) (D : Draws)
    (now : ℤ) (avg : ℚ)
    (hs : ∀ i, (D.detail i).sampleIdx.Perm
      (List.range (generate_products D.prod).length)) :
    (∀ o ∈ generate_orders cs D.orderCount D.poissonCount D.orderDate now avg,
      ∃ d ∈ generate_order_details
          (generate_orders cs D.orderCount D.poissonCount D.orderDate now avg)
          (generate_products D.prod) D.detail D.line,
        d.order_id = o.order_id) ∧
    ∃ pays, generate_payments
        (generate_orders cs D.orderCount D.poissonCount D.orderDate now avg)
        (generate_order_details
          (generate_orders cs D.orderCount D.poissonCount D.orderDate now avg)
          (generate_products D.prod) D.detail D.line) D.pay = some pays ∧
      pays.map (fun p => p.order_id) =
        (generate_orders cs D.orderCount D.poissonCount D.orderDate now avg).map
          (fun o => o.order_id) := by
  have hpos : ∀ i, 1 ≤ (chosenProducts (generate_products D.prod) D.detail i).length := by
    intro i
    rw [chosenProducts, List.length_map, List.length_take, (hs i).length_eq]
    have h20 : (generate_products D.prod).length = 20 := rfl
    rw [h20]
    refine Nat.le_min.mpr ⟨?_, by norm_num⟩
    simp [Int.le_toNat, le_min_iff]
  have hline : ∀ o ∈ generate_orders cs D.orderCount D.poissonCount D.orderDate now avg,
      ∃ d ∈ generate_order_details
          (generate_orders cs D.orderCount D.poissonCount D.orderDate now avg)
          (generate_products D.prod) D.detail D.line,
        d.order_id = o.order_id := by
    intro o ho
    exact detailsGo_exists_line (generate_products D.prod) D.detail D.line hpos
      (generate_orders cs D.orderCount D.poissonCount D.orderDate now avg) 0 1 o ho
  refine ⟨hline, ?_⟩
  have hsome : ∀ o ∈ generate_orders cs D.orderCount D.poissonCount D.orderDate now avg,
      ((detail_totals (generate_order_details
          (generate_orders cs D.orderCount D.poissonCount D.orderDate now avg)
          (generate_products D.prod) D.detail D.line)).lookup o.order_id).isSome := by
    intro o ho
    obtain ⟨d, hd, he⟩ := hline o ho
    rw [detail_totals, lookup_accumAssoc]
    have hmem : o.order_id ∈ ((generate_order_details
        (generate_orders cs D.orderCount D.poissonCount D.orderDate now avg)
        (generate_products D.prod) D.detail D.line).map
        (fun d => (d.order_id, d.line_total))).map (fun r => r.1) := by
      rw [List.map_map]
      exact List.mem_map.mpr ⟨d, hd, he⟩
    rw [if_pos hmem]
    rfl
  have hps := generate_paymentsGo_isSome
    (detail_totals (generate_order_details
      (generate_orders cs D.orderCount D.poissonCount D.orderDate now avg)
      (generate_products D.prod) D.detail D.line)) D.pay
    (generate_orders cs D.orderCount D.poissonCount D.orderDate now avg) 1 hsome
  obtain ⟨pays, hpays⟩ := Option.isSome_iff_exists.mp hps
  refine ⟨pays, hpays, ?_⟩
  exact generate_paymentsGo_ids _ D.pay _ 1 pays hpays

/-! ### Concrete witnesses for the pipeline claims -/

def orderD : Order := ⟨1, 1, 0, "CA"⟩

def ordersW : List Order := [orderD]

theorem C4_payment_totals_witness :
    ∃ pays, generate_payments ordersW
        (generate_order_details ordersW (generate_products drawsA.prod)
          drawsA.detail drawsA.line) drawsA.pay = some pays ∧
      ∀ p ∈ pays, p.total = p.subtotal + p.tax + p.shipping ∧
        ((75 : ℚ) ≤ p.subtotal → p.shipping = 0) := by
  have hsome : (generate_payments ordersW
      (generate_order_details ordersW (generate_products drawsA.prod)
        drawsA.detail drawsA.line) drawsA.pay).isSome := by
    rw [generate_payments]
    refine generate_paymentsGo_isSome _ _ _ _ ?_
    decide
  obtain ⟨pays, hpays⟩ := Option.isSome_iff_exists.mp hsome
  exact ⟨pays, hpays, C4_payment_totals ordersW (generate_products drawsA.prod)
    drawsA.detail drawsA.line drawsA.pay pays hpays⟩

theorem C5_line_totals_match_subtotal_witness :
    ∃ pays, generate_payments ordersW
        (generate_order_details ordersW (generate_products drawsA.prod)
          drawsA.detail drawsA.line) drawsA.pay = some pays ∧
      ∃ p ∈ pays, p.order_id = orderD.order_id ∧
        |(((generate_order_details ordersW (generate_products drawsA.prod)
            drawsA.detail drawsA.line).filter
          (fun d => d.order_id = orderD.order_id)).map
          (fun d => d.line_total)).sum - p.subtotal| ≤ 1 / 100 := by
  have hsome : (generate_payments ordersW
      (generate_order_details ordersW (generate_products drawsA.prod)
        drawsA.detail drawsA.line) drawsA.pay).isSome := by
    rw [generate_payments]
    refine generate_paymentsGo_isSome _ _ _ _ ?_
    decide
  obtain ⟨pays, hpays⟩ := Option.isSome_iff_exists.mp hsome
  exact ⟨pays, hpays, C5_line_totals_match_subtotal ordersW
    (generate_products drawsA.prod) drawsA.detail drawsA.line drawsA.pay
    pays hpays orderD (List.mem_singleton.mpr rfl)⟩

theorem C6_distinct_products_per_order_witness :
    (ordersW.map (fun o => o.order_id)).Nodup ∧
    (∀ i, (drawsA.detail i).sampleIdx.Perm
      (List.range (generate_products drawsA.prod).length)) ∧
    (((((generate_order_details ordersW (generate_products drawsA.prod)
          drawsA.detail drawsA.line).filter
        (fun d => d.order_id = (ordersW.get ⟨0, Nat.one_pos⟩).order_id)).map
      (fun d => d.product_id)).Nodup) ∧
      ((generate_order_details ordersW (generate_products drawsA.prod)
          drawsA.detail drawsA.line).filter
        (fun d => d.order_id = (ordersW.get ⟨0, Nat.one_pos⟩).order_id)).length =
        min (max 1 (drawsA.detail 0).itemCountG).toNat
          (generate_products drawsA.prod).length) :=
  ⟨by decide, fun i => List.Perm.refl _,
    C6_distinct_products_per_order ordersW drawsA.prod drawsA.detail drawsA.line
      (by decide) (fun i => List.Perm.refl _) 0 Nat.one_pos⟩

theorem C8_generate_products_catalog_witness :
    0 < (generate_products drawsA.prod).length ∧
    (((catalogFlat.getD 0 dfltEntry).2.2.1 : ℚ) ≤
        ((generate_products drawsA.prod).getD 0 dfltProduct).unit_price ∧
      ((generate_products drawsA.prod).getD 0 dfltProduct).unit_price ≤
        ((catalogFlat.getD 0 dfltEntry).2.2.2 : ℚ)) :=
  ⟨by decide, (C8_generate_products_catalog drawsA.prod).2.2 0 (by decide)⟩

def customersW : List Customer :=
  [⟨1, "Ann Smith", "ann.smith@example.com", "+1-200-200-1000", "CA", 970⟩]

theorem C9_one_payment_per_order_witness :
    (∀ i, (drawsA.detail i).sampleIdx.Perm
      (List.range (generate_products drawsA.prod).length)) ∧
    ((∀ o ∈ generate_orders customersW drawsA.orderCount drawsA.poissonCount
        drawsA.orderDate 1440000 (5/2),
      ∃ d ∈ generate_order_details
          (generate_orders customersW drawsA.orderCount drawsA.poissonCount
            drawsA.orderDate 1440000 (5/2))
          (generate_products drawsA.prod) drawsA.detail drawsA.line,
        d.order_id = o.order_id) ∧
    ∃ pays, generate_payments
        (generate_orders customersW drawsA.orderCount drawsA.poissonCount
          drawsA.orderDate 1440000 (5/2))
        (generate_order_details
          (generate_orders customersW drawsA.orderCount drawsA.poissonCount
            drawsA.orderDate 1440000 (5/2))
          (generate_products drawsA.prod) drawsA.detail drawsA.line)
        drawsA.pay = some pays ∧
      pays.map (fun p => p.order_id) =
        (generate_orders customersW drawsA.orderCount drawsA.poissonCount
          drawsA.orderDate 1440000 (5/2)).map (fun o => o.order_id)) :=
  ⟨fun i => List.Perm.refl _,
    C9_one_payment_per_order customersW drawsA 1440000 (5/2)
      (fun i => List.Perm.refl _)⟩

/-! ### Claim C3: the top-spender query -/

/-- C3 (amended): the query aggregates per customer *name* (`GROUP BY
c.name` merges customers that share a name): every returned row's
`total_spend` is the sum of `quantity * unit_price` over all join rows
with that name; at most 5 rows are returned, sorted descending — not
strictly descending, since equal totals may tie. -/
theorem C3_top_spenders_amended (cs : List Customer) (os : List Order)
    (ds : List OrderDetail) (ps : List Product) :
    (top_spenders cs os ds ps).length ≤ 5 ∧
    (top_spenders cs os ds ps).Pairwise (fun a b => b.2 ≤ a.2) ∧
    ∀ r ∈ top_spenders cs os ds ps,
      r.2 = keySum (sqlJoinRows cs os ds ps) r.1 := by
  refine ⟨List.length_take_le .., ?_, ?_⟩
  · have hs := @List.sorted_mergeSort (String × ℚ)
      (fun a b => decide (b.2 ≤ a.2))
      (fun a b c hab hbc => by
        simp only [decide_eq_true_eq] at hab hbc ⊢
        exact le_trans hbc hab)
      (fun a b => by
        simpa [Bool.or_eq_true, decide_eq_true_eq] using
          le_total b.2 a.2)
      (accumAssoc (sqlJoinRows cs os ds ps))
    have hs2 : ((accumAssoc (sqlJoinRows cs os ds ps)).mergeSort
        (fun a b => decide (b.2 ≤ a.2))).Pairwise (fun a b => b.2 ≤ a.2) :=
      hs.imp (fun h2 => by simpa using h2)
    exact hs2.sublist (List.take_sublist ..)
  · intro r hr
    obtain ⟨k, v⟩ := r
    have hr2 : (k, v) ∈ accumAssoc (sqlJoinRows cs os ds ps) := by
      have h1 := List.take_subset 5 _ hr
      rw [List.mem_mergeSort] at h1
      exact h1
    have hv := mem_assoc_eq_keySum (nodup_keys_accumAssoc _) hr2
    rw [keySum_accumAssoc] at hv
    exact hv

def custA1 : Customer := ⟨1, "A A", "a@a", "p", "CA", 0⟩

def custA2 : Customer := ⟨2, "A A", "a@a", "p", "CA", 0⟩

def custB : Customer := ⟨3, "B B", "b@b", "p", "NY", 0⟩

def customersQ : List Customer := [custA1, custA2, custB]

def ordersQ : List Order := [⟨1, 1, 0, "CA"⟩, ⟨2, 2, 0, "CA"⟩, ⟨3, 3, 0, "NY"⟩]

def productQ : Product := ⟨1, "Widget", "Misc", 10, 5⟩

def productsQ : List Product := [productQ]

def detailsQ : List OrderDetail :=
  [⟨1, 1, 1, 1, 10, 0, 10⟩, ⟨2, 2, 1, 1, 10, 0, 10⟩, ⟨3, 3, 1, 2, 10, 0, 20⟩]

theorem top_spendersQ_eval :
    top_spenders customersQ ordersQ detailsQ productsQ =
      [("A A", 20), ("B B", 20)] := by
  have hne : ¬ ("B B" : String) = "A A" := by decide
  have hjoin : sqlJoinRows customersQ ordersQ detailsQ productsQ =
      [("A A", 10), ("A A", 10), ("B B", 20)] := by
    norm_num [sqlJoinRows, customersQ, ordersQ, detailsQ, productsQ,
      custA1, custA2, custB, productQ]
  have hacc : accumAssoc [(("A A" : String), (10 : ℚ)), ("A A", 10), ("B B", 20)] =
      [("A A", 20), ("B B", 20)] := by
    norm_num [accumAssoc, addToAssoc, hne]
  rw [top_spenders, hjoin, hacc, List.mergeSort_of_sorted (by norm_num)]
  rfl

/-- C3 fails as stated: with two distinct customers both named "A A"
spending 10 each and one customer "B B" spending 20, the query merges the
two namesakes into one row ("A A", 20) that is no single customer's
spend, and the returned rows ("A A", 20), ("B B", 20) tie, so they are
not strictly descending. -/
theorem C3_counterexample :
    (¬ ∀ r ∈ top_spenders customersQ ordersQ detailsQ productsQ,
        ∃ c ∈ customersQ, r.1 = c.name ∧
          r.2 = specCustomerSpend c ordersQ detailsQ productsQ) ∧
    ¬ ((top_spenders customersQ ordersQ detailsQ productsQ).Pairwise
        (fun a b => b.2 < a.2)) := by
  have h1 : specCustomerSpend custA1 ordersQ detailsQ productsQ = 10 := by
    norm_num [specCustomerSpend, sqlJoinRows, custA1, ordersQ, detailsQ,
      productsQ, productQ]
  have h2 : specCustomerSpend custA2 ordersQ detailsQ productsQ = 10 := by
    norm_num [specCustomerSpend, sqlJoinRows, custA2, ordersQ, detailsQ,
      productsQ, productQ]
  constructor
  · intro hall
    obtain ⟨c, hc, hname, hspend⟩ := hall ("A A", 20)
      (by rw [top_spendersQ_eval]; exact List.mem_cons_self ..)
    simp only [customersQ, List.mem_cons, List.mem_singleton,
      List.not_mem_nil, or_false] at hc
    rcases hc with rfl | rfl | rfl
    · rw [h1] at hspend
      norm_num at hspend
    · rw [h2] at hspend
      norm_num at hspend
    · have : ("A A" : String) = "B B" := hname
      exact absurd this (by decide)
  · intro hp
    rw [top_spendersQ_eval, List.pairwise_cons] at hp
    have hlt := hp.1 ("B B", 20) (List.mem_cons_self ..)
    norm_num at hlt

theorem C3_top_spenders_amended_witness :
    ("A A", (20 : ℚ)) ∈ top_spenders customersQ ordersQ detailsQ productsQ ∧
    (20 : ℚ) = keySum (sqlJoinRows customersQ ordersQ detailsQ productsQ) "A A" := by
  have hmem : ("A A", (20 : ℚ)) ∈ top_spenders customersQ ordersQ detailsQ productsQ := by
    rw [top_spendersQ_eval]
    exact List.mem_cons_self ..
  exact ⟨hmem, (C3_top_spenders_amended customersQ ordersQ detailsQ
    productsQ).2.2 ("A A", (20 : ℚ)) hmem⟩
